import Mathlib

/-!
Shallow embedding of the Snowflake-to-MongoDB metadata sync pipeline
(NestJS service: `SnowflakeService`, `MongodbService`, `MetadataService`),
together with proofs about its specification.

The embedding models:
* the SHA-256 checksum over the JSON serialization of a table's name-sorted
  column list (`generateChecksum`, from `MongodbService`),
* the bulk upsert of table metadata with its new/updated/skipped counting
  (`upsertMetadata`),
* the sync orchestrator (`syncMetadata` in `MetadataService`) with its
  catch-all failure path and best-effort run-history write (`saveSyncStats`),
* the last-successful-run watermark (`getSyncStats`),
* the two generations of catalog extraction in `SnowflakeService`
  (SHOW-command enumeration and the INFORMATION_SCHEMA.TABLES set query)
  with their system-object exclusion and incremental filtering,
* the connection lifecycle of `getAllTables`, and
* the retrying query executor (modelled from the spec, see below).

JavaScript strings are modelled as Lean `String`; machine integers and dates
as `Nat`/`Int` (epoch milliseconds); fallible calls as `Except`; in-place
mutation (the column sort inside `generateChecksum`) as explicit state
passing.
-/

set_option maxRecDepth 1000000

namespace SnowflakeSync

/-! ## Character and string helpers

`Array.prototype.sort` with a `localeCompare` comparator is modelled as a
stable sort under code-point comparison, and `toUpperCase`/`toLowerCase`
as ASCII case folding (all identifiers compared by the service are ASCII).
-/

/-- Code-point comparison of char lists: lexicographic `≤`. -/
def charsLe : List Char → List Char → Bool
  | [], _ => true
  | _ :: _, [] => false
  | a :: as, b :: bs =>
    if a.toNat < b.toNat then true
    else if b.toNat < a.toNat then false
    else charsLe as bs

/-- String `≤` under code-point order (the model of the `localeCompare`
comparator used by `generateChecksum`). -/
def strLe (a b : String) : Bool := charsLe a.data b.data

/-- Model of JavaScript `String.prototype.toUpperCase` on ASCII data. -/
def jsToUpperCase (s : String) : String := String.mk (s.data.map Char.toUpper)

/-- Model of JavaScript `String.prototype.toLowerCase` on ASCII data. -/
def jsToLowerCase (s : String) : String := String.mk (s.data.map Char.toLower)

/-- Does `pat` occur at the head of `hay`? -/
def startsWithChars : List Char → List Char → Bool
  | [], _ => true
  | _ :: _, [] => false
  | p :: ps, h :: hs => p == h && startsWithChars ps hs

/-- Does `pat` occur anywhere inside `hay`?  Model of
`String.prototype.includes`. -/
def containsChars (hay pat : List Char) : Bool :=
  match hay with
  | [] => pat.isEmpty
  | _ :: t => startsWithChars pat hay || containsChars t pat

/-- Model of JavaScript `hay.includes(pat)`. -/
def jsIncludes (hay pat : String) : Bool := containsChars hay.data pat.data

/-! ## SHA-256

Executable embedding of the SHA-256 hash used by
`crypto.createHash('sha256').update(data).digest('hex')`.
Words are `Nat` reduced mod `2 ^ 32`.
-/

/-- 2 ^ 32, the modulus for 32-bit words. -/
def M32 : Nat := 4294967296

/-- Rotate the 32-bit word `x` right by `n` bits. -/
def rotr (x n : Nat) : Nat := Nat.lor (x >>> n) ((x <<< (32 - n)) % M32)

/-- Addition mod 2 ^ 32. -/
def add32 (a b : Nat) : Nat := (a + b) % M32

/-- The 64 SHA-256 round constants (FIPS 180-4, written in decimal). -/
def sha256K : List Nat :=
  [1116352408, 1899447441, 3049323471, 3921009573, 961987163, 1508970993,
   2453635748, 2870763221, 3624381080, 310598401, 607225278, 1426881987,
   1925078388, 2162078206, 2614888103, 3248222580, 3835390401, 4022224774,
   264347078, 604807628, 770255983, 1249150122, 1555081692, 1996064986,
   2554220882, 2821834349, 2952996808, 3210313671, 3336571891, 3584528711,
   113926993, 338241895, 666307205, 773529912, 1294757372, 1396182291,
   1695183700, 1986661051, 2177026350, 2456956037, 2730485921, 2820302411,
   3259730800, 3345764771, 3516065817, 3600352804, 4094571909, 275423344,
   430227734, 506948616, 659060556, 883997877, 958139571, 1322822218,
   1537002063, 1747873779, 1955562222, 2024104815, 2227730452, 2361852424,
   2428436474, 2756734187, 3204031479, 3329325298]

/-- The eight SHA-256 initial hash words (FIPS 180-4, written in decimal). -/
def shaH0 : List Nat :=
  [1779033703, 3144134277, 1013904242, 2773480762,
   1359893119, 2600822924, 528734635, 1541459225]

/-- Big-endian byte expansion of `x` into `len` bytes. -/
def toBytesBE (len x : Nat) : List Nat :=
  (List.range len).map (fun i => (x >>> (8 * (len - 1 - i))) % 256)

/-- SHA-256 message padding: `0x80`, zeros, 64-bit big-endian bit length. -/
def padMessage (msg : List Nat) : List Nat :=
  let ml := msg.length
  let padZeros := (64 - ((ml + 9) % 64)) % 64
  msg ++ [128] ++ List.replicate padZeros 0 ++ toBytesBE 8 (8 * ml)

/-- Big-endian 32-bit words of a byte list. -/
def wordsOf : List Nat → List Nat
  | b0 :: b1 :: b2 :: b3 :: rest => (((b0 * 256 + b1) * 256 + b2) * 256 + b3) :: wordsOf rest
  | _ => []

/-- SHA-256 small sigma 0. -/
def smallSigma0 (x : Nat) : Nat := Nat.xor (rotr x 7) (Nat.xor (rotr x 18) (x >>> 3))

/-- SHA-256 small sigma 1. -/
def smallSigma1 (x : Nat) : Nat := Nat.xor (rotr x 17) (Nat.xor (rotr x 19) (x >>> 10))

/-- SHA-256 big Sigma 0. -/
def bigSigma0 (x : Nat) : Nat := Nat.xor (rotr x 2) (Nat.xor (rotr x 13) (rotr x 22))

/-- SHA-256 big Sigma 1. -/
def bigSigma1 (x : Nat) : Nat := Nat.xor (rotr x 6) (Nat.xor (rotr x 11) (rotr x 25))

/-- Extend the 16 block words to the 64-entry message schedule. -/
def schedule (ws : List Nat) : List Nat :=
  (List.range 48).foldl (fun w _ =>
    let i := w.length
    w ++ [(w.getD (i - 16) 0 + smallSigma0 (w.getD (i - 15) 0) +
           w.getD (i - 7) 0 + smallSigma1 (w.getD (i - 2) 0)) % M32]) ws

/-- The eight SHA-256 working registers. -/
structure Regs where
  a : Nat
  b : Nat
  c : Nat
  d : Nat
  e : Nat
  f : Nat
  g : Nat
  h : Nat

/-- One SHA-256 compression round. -/
def compressRound (st : Regs) (kw : Nat × Nat) : Regs :=
  let ch := Nat.xor (Nat.land st.e st.f) (Nat.land (M32 - 1 - st.e) st.g)
  let t1 := (st.h + bigSigma1 st.e + ch + kw.1 + kw.2) % M32
  let maj := Nat.xor (Nat.land st.a st.b) (Nat.xor (Nat.land st.a st.c) (Nat.land st.b st.c))
  let t2 := (bigSigma0 st.a + maj) % M32
  ⟨(t1 + t2) % M32, st.a, st.b, st.c, (st.d + t1) % M32, st.e, st.f, st.g⟩

/-- Compress one 64-byte block into the running hash value. -/
def compressBlock (hs : List Nat) (block : List Nat) : List Nat :=
  let ws := schedule (wordsOf block)
  let init : Regs := ⟨hs.getD 0 0, hs.getD 1 0, hs.getD 2 0, hs.getD 3 0,
                      hs.getD 4 0, hs.getD 5 0, hs.getD 6 0, hs.getD 7 0⟩
  let st := (sha256K.zip ws).foldl compressRound init
  [add32 (hs.getD 0 0) st.a, add32 (hs.getD 1 0) st.b, add32 (hs.getD 2 0) st.c,
   add32 (hs.getD 3 0) st.d, add32 (hs.getD 4 0) st.e, add32 (hs.getD 5 0) st.f,
   add32 (hs.getD 6 0) st.g, add32 (hs.getD 7 0) st.h]

/-- Process `n` 64-byte blocks. -/
def processBlocks : Nat → List Nat → List Nat → List Nat
  | 0, _, hs => hs
  | n + 1, bytes, hs => processBlocks n (bytes.drop 64) (compressBlock hs (bytes.take 64))

/-- Lower-case hex digit. -/
def hexDigit (n : Nat) : Char :=
  if n < 10 then Char.ofNat (48 + n) else Char.ofNat (87 + n)

/-- Eight hex digits of a 32-bit word, most significant first. -/
def wordToHex (x : Nat) : List Char :=
  (List.range 8).map (fun i => hexDigit ((x >>> (4 * (7 - i))) % 16))

/-- SHA-256 of a byte list as a lower-case hex string
(model of `digest('hex')`). -/
def sha256Hex (msg : List Nat) : String :=
  let padded := padMessage msg
  let hs := processBlocks (padded.length / 64) padded shaH0
  String.mk (hs.foldr (fun w acc => wordToHex w ++ acc) [])

/-- UTF-8 encoding of a string (model of `crypto`'s default input
encoding). -/
def utf8Bytes (s : String) : List Nat :=
  s.data.foldr (fun c acc =>
    let n := c.toNat
    if n < 128 then n :: acc
    else if n < 2048 then (192 + n / 64) :: (128 + n % 64) :: acc
    else if n < 65536 then (224 + n / 4096) :: (128 + (n / 64) % 64) :: (128 + n % 64) :: acc
    else (240 + n / 262144) :: (128 + (n / 4096) % 64) :: (128 + (n / 64) % 64) :: (128 + n % 64) :: acc) []

/-- SHA-256 sanity anchor: the standard one-block test vector. -/
theorem sha256Hex_abc :
    sha256Hex (utf8Bytes "abc") =
      "ba7816bf8f01cfea414140de5dae2223b00361a396177a9cb410ff61f20015ad" := by decide

/-! ## Data model

`SnowflakeTable` embeds the interface of the same name in
`snowflake.service.ts`.  The tables handed to `upsertMetadata` are produced
by `groupColumnsIntoTables` / `getTableColumns`, which always populate all
five column keys (a SQL NULL becomes a JSON `null`), so `defaultValue` and
`comment` are `Option String` with `none` serializing to `null`.
-/

/-- One column of a warehouse table (the `columns` element type of
`SnowflakeTable`). -/
structure SfColumn where
  name : String
  type : String
  nullable : Bool
  defaultValue : Option String
  comment : Option String
deriving DecidableEq

/-- One warehouse table with its column sequence
(interface `SnowflakeTable`). -/
structure SnowflakeTable where
  database : String
  schema : String
  table : String
  columns : List SfColumn
deriving DecidableEq

/-! ## Column sorting and the checksum

`generateChecksum` (in `MongodbService`) runs
`table.columns.sort((a, b) => a.name.localeCompare(b.name))` — an in-place
stable sort by column name — and hashes
`JSON.stringify({ columns: sortedColumns })` with SHA-256.
-/

/-- The comparator ordering of `generateChecksum`: columns ordered by name. -/
def colR (a b : SfColumn) : Prop := strLe a.name b.name = true

instance : DecidableRel colR := fun a b => by unfold colR; infer_instance

/-- The sort performed (in place) by `generateChecksum`: a stable sort of
the columns by name, as JavaScript `Array.prototype.sort` guarantees. -/
def sortColumns (cols : List SfColumn) : List SfColumn := List.insertionSort colR cols

/-- JSON escaping of one character, as `JSON.stringify` performs it. -/
def jsonEscapeChar (c : Char) : List Char :=
  if c = '"' then ['\\', '"']
  else if c = '\\' then ['\\', '\\']
  else if c = '\n' then ['\\', 'n']
  else if c = '\r' then ['\\', 'r']
  else if c = '\t' then ['\\', 't']
  else if c.toNat = 8 then ['\\', 'b']
  else if c.toNat = 12 then ['\\', 'f']
  else if c.toNat < 32 then ['\\', 'u', '0', '0', hexDigit (c.toNat / 16), hexDigit (c.toNat % 16)]
  else [c]

/-- A JSON string literal. -/
def jsonString (s : String) : String :=
  String.mk ('"' :: s.data.foldr (fun c acc => jsonEscapeChar c ++ acc) ['"'])

/-- JSON for an optional string, `none` rendering as `null`. -/
def jsonOptString : Option String → String
  | none => "null"
  | some s => jsonString s

/-- JSON for a boolean. -/
def jsonBool : Bool → String
  | true => "true"
  | false => "false"

/-- JSON serialization of one column object, keys in the order the
extraction code creates them. -/
def serializeColumn (c : SfColumn) : String :=
  "\x7b\"name\":" ++ jsonString c.name ++ ",\"type\":" ++ jsonString c.type ++
    ",\"nullable\":" ++ jsonBool c.nullable ++ ",\"defaultValue\":" ++
    jsonOptString c.defaultValue ++ ",\"comment\":" ++ jsonOptString c.comment ++ "\x7d"

/-- JSON serialization of a column array. -/
def serializeColumns (cols : List SfColumn) : String :=
  "[" ++ String.intercalate "," (cols.map serializeColumn) ++ "]"

/-- The exact string hashed by `generateChecksum`:
`JSON.stringify({ columns: ... })`. -/
def checksumPayload (cols : List SfColumn) : String :=
  "\x7b\"columns\":" ++ serializeColumns cols ++ "\x7d"

/-- `generateChecksum` from `MongodbService`: SHA-256 hex digest of the
JSON serialization of the name-sorted column list.  The in-place mutation
of `table.columns` is modelled separately by `sortTable`. -/
def generateChecksum (table : SnowflakeTable) : String :=
  sha256Hex (utf8Bytes (checksumPayload (sortColumns table.columns)))

/-- The caller-visible effect of `generateChecksum` on its argument:
`table.columns` has been sorted in place by name. -/
def sortTable (t : SnowflakeTable) : SnowflakeTable := { t with columns := sortColumns t.columns }

/-! ## Errors

A JavaScript `Error` as the services observe it: possibly a `message`
(a falsy — absent or empty — message is replaced downstream) and, for
Snowflake errors, possibly a vendor `code`.
-/

/-- A JavaScript error value. -/
structure JsError where
  message : Option String
  code : Option String
deriving DecidableEq

instance exceptDecEq {ε α : Type} [DecidableEq ε] [DecidableEq α] : DecidableEq (Except ε α) :=
  fun x y =>
    match x, y with
    | .ok a, .ok b => if h : a = b then isTrue (by rw [h]) else isFalse (by simp [h])
    | .error a, .error b => if h : a = b then isTrue (by rw [h]) else isFalse (by simp [h])
    | .ok _, .error _ => isFalse (by simp)
    | .error _, .ok _ => isFalse (by simp)

/-- Model of `error.message || 'Unknown error occurred'` (note that the
empty string is falsy in JavaScript). -/
def errMessage (e : JsError) : String :=
  match e.message with
  | some m => if m = "" then "Unknown error occurred" else m
  | none => "Unknown error occurred"

/-! ## The metadata collection and `upsertMetadata`

`upsertMetadata` (bulk version of `MongodbService`) computes a checksum per
table, reads the existing records for all input keys in one query, creates
one `insertOne`/`updateOne` per new/changed table, executes them as one
unordered `bulkWrite`, and derives the counts from the bulk result with
`skipped = total − inserted − updated`.

The `metadata` collection is a list of `CatalogRecord`s (unique index on
the `(database, schema, table)` key).  `bulkWrite` is a parameter so that
theorems range over every driver behaviour; `mongoBulkExec` is the concrete
semantics of an unordered bulk write against the in-memory store.
-/

/-- One persisted document of the `metadata` collection. -/
structure CatalogRecord where
  database : String
  schema : String
  table : String
  columns : List SfColumn
  checksum : String
deriving DecidableEq

/-- The `metadata` collection. -/
abbrev MetaStore := List CatalogRecord

/-- Does record `r` match the key of table `t` (the `$or` / `filter`
clauses of `upsertMetadata`)? -/
def recMatchesTable (r : CatalogRecord) (t : SnowflakeTable) : Bool :=
  r.database == t.database && r.schema == t.schema && r.table == t.table

/-- Do two tables carry the same `(database, schema, table)` key (the
`Map` key `database.schema.table`)? -/
def tablesSameKey (a b : SnowflakeTable) : Bool :=
  a.database == b.database && a.schema == b.schema && a.table == b.table

/-- Does record `r` carry the given key? -/
def recKeyEq (r : CatalogRecord) (db sch tbl : String) : Bool :=
  r.database == db && r.schema == sch && r.table == tbl

/-- One document-level operation of the bulk write. -/
inductive BulkOp where
  | insertOne (doc : CatalogRecord)
  | updateOne (database schema table : String) (columns : List SfColumn) (checksum : String)
deriving DecidableEq

/-- Counts reported by the MongoDB bulk write result. -/
structure BulkResult where
  insertedCount : Nat
  modifiedCount : Nat
deriving DecidableEq

/-- The checksum the `checksums` map holds for the key of `t`: the
checksum of the last input table with that key. -/
def checksumFor (tables : List SnowflakeTable) (t : SnowflakeTable) : String :=
  match tables.reverse.find? (fun t2 => tablesSameKey t2 t) with
  | some t2 => generateChecksum t2
  | none => generateChecksum t

/-- The record the `existingMap` lookup yields for the key of `t`: the
last fetched record with that key (a `Map.set` overwrites). -/
def existingFor (store : MetaStore) (t : SnowflakeTable) : Option CatalogRecord :=
  store.reverse.find? (fun r => recMatchesTable r t)

/-- The operations one table contributes to the bulk write: an `insertOne`
(no existing record), an `updateOne` (checksum differs), or nothing
(unchanged).  `all` is the full input list the `checksums` map was built
from. -/
def buildOp (all : List SnowflakeTable) (store : MetaStore) (t : SnowflakeTable)
    (acc : List BulkOp) : List BulkOp :=
  match existingFor store t with
  | none =>
      BulkOp.insertOne ⟨t.database, t.schema, t.table, t.columns, checksumFor all t⟩ :: acc
  | some r =>
      if r.checksum ≠ checksumFor all t then
        BulkOp.updateOne t.database t.schema t.table t.columns (checksumFor all t) :: acc
      else acc

/-- The bulk operation list of `upsertMetadata`: per input table one
`insertOne`, one `updateOne`, or nothing. -/
def buildOps (tables : List SnowflakeTable) (store : MetaStore) : List BulkOp :=
  tables.foldr (buildOp tables store) []

/-- Number of `insertOne` operations. -/
def countInserts (ops : List BulkOp) : Nat :=
  ops.countP (fun op => match op with | .insertOne _ => true | _ => false)

/-- Number of `updateOne` operations. -/
def countUpdates (ops : List BulkOp) : Nat :=
  ops.countP (fun op => match op with | .updateOne _ _ _ _ _ => true | _ => false)

/-- Replace the first record matching the key, returning whether a record
matched.  (`updateOne` also refreshes `lastSynced`, so a matched document
always counts as modified.) -/
def updateFirst (db sch tbl : String) (cols : List SfColumn) (cs : String) :
    MetaStore → Bool × MetaStore
  | [] => (false, [])
  | r :: rest =>
    if recKeyEq r db sch tbl then
      (true, { r with columns := cols, checksum := cs } :: rest)
    else
      ((updateFirst db sch tbl cols cs rest).1, r :: (updateFirst db sch tbl cols cs rest).2)

/-- Apply one document-level operation: an `insertOne` on a key already
present fails against the unique index (a document-level error the
unordered bulk write tolerates); an `updateOne` modifies the first match. -/
def applyBulkOp (acc : BulkResult × MetaStore) (op : BulkOp) : BulkResult × MetaStore :=
  match op with
  | .insertOne doc =>
      if acc.2.any (fun r => recKeyEq r doc.database doc.schema doc.table) then acc
      else ({ acc.1 with insertedCount := acc.1.insertedCount + 1 }, acc.2 ++ [doc])
  | .updateOne db sch tbl cols cs =>
      let (matched, store') := updateFirst db sch tbl cols cs acc.2
      (if matched then { acc.1 with modifiedCount := acc.1.modifiedCount + 1 } else acc.1, store')

/-- Concrete semantics of `bulkWrite(ops, { ordered: false })` against the
in-memory collection. -/
def mongoBulkExec (ops : List BulkOp) (store : MetaStore) :
    Except JsError (BulkResult × MetaStore) :=
  .ok (ops.foldl applyBulkOp (⟨0, 0⟩, store))

/-- The counts `upsertMetadata` returns.  They are integers (not `Nat`)
because `skippedTables` is computed by subtraction in JavaScript. -/
structure UpsertCounts where
  newTables : Int
  updatedTables : Int
  skippedTables : Int
deriving DecidableEq

/-- `upsertMetadata` of `MongodbService` (bulk version).  The result also
carries the new store contents and the caller-visible table list (whose
column arrays `generateChecksum` sorted in place). -/
def upsertMetadata
    (bulkExec : List BulkOp → MetaStore → Except JsError (BulkResult × MetaStore))
    (tables : List SnowflakeTable) (store : MetaStore) :
    Except JsError (UpsertCounts × MetaStore × List SnowflakeTable) :=
  if tables.isEmpty then .ok (⟨0, 0, 0⟩, store, tables)
  else
    let mutated := tables.map sortTable
    let ops := buildOps mutated store
    if ops.isEmpty then
      .ok (⟨0, 0, (tables.length : Int)⟩, store, mutated)
    else
      match bulkExec ops store with
      | .error e => .error e
      | .ok (res, store') =>
          .ok (⟨(res.insertedCount : Int), (res.modifiedCount : Int),
                (tables.length : Int) - (res.insertedCount : Int) - (res.modifiedCount : Int)⟩,
               store', mutated)

/-! ## Run history: `sync_stats`, the watermark, `saveSyncStats`

`getSyncStats` reads `findOne({ success: true }).sort({ syncEndTime: -1 })`
— the successful run with the greatest `syncEndTime` — and returns its
`syncEndTime`, or `null` when no successful run exists.  `saveSyncStats`
appends one run record and swallows (logs only) its own failure.
-/

/-- One persisted `sync_stats` document (schema `SyncStats`). -/
structure SyncStatsRec where
  syncStartTime : Int
  syncEndTime : Int
  success : Bool
  totalTables : Int
  newTables : Int
  updatedTables : Int
  skippedTables : Int
  processingTimeMs : Int
  errors : List String
  message : String
deriving DecidableEq

/-- `getSyncStats` of `MongodbService`: the `syncEndTime` of the latest
successful run, or `none` (`lastSyncTime: null`) when there is none. -/
def getSyncStats (runs : List SyncStatsRec) : Option Int :=
  (runs.filter (fun r => r.success)).foldl
    (fun acc r =>
      match acc with
      | none => some r.syncEndTime
      | some t => some (max t r.syncEndTime)) none

/-- The response DTO `SyncResponseDto` (the `errors` key is optional and
only present on the failure path). -/
structure SyncResponseStats where
  totalTables : Int
  newTables : Int
  updatedTables : Int
  skippedTables : Int
  processingTimeMs : Int
deriving DecidableEq

/-- The value `syncMetadata` returns to the HTTP layer. -/
structure SyncResponseDto where
  success : Bool
  message : String
  stats : SyncResponseStats
  errors : Option (List String)
deriving DecidableEq

/-- The record `saveSyncStats` writes for a given response. -/
def runRecordOf (resp : SyncResponseDto) (startTime endTime : Int) : SyncStatsRec :=
  ⟨startTime, endTime, resp.success, resp.stats.totalTables, resp.stats.newTables,
   resp.stats.updatedTables, resp.stats.skippedTables, resp.stats.processingTimeMs,
   resp.errors.getD [], resp.message⟩

/-- `saveSyncStats` of `MongodbService`: appends one run record;
`historyWriteOk = false` models a rejected `create`, which the internal
`try`/`catch` swallows after logging, leaving the log unchanged. -/
def saveSyncStats (historyWriteOk : Bool) (runs : List SyncStatsRec)
    (resp : SyncResponseDto) (startTime endTime : Int) : List SyncStatsRec :=
  if historyWriteOk then runs ++ [runRecordOf resp startTime endTime] else runs

/-! ## The orchestrator: `syncMetadata` of `MetadataService`

The whole body is wrapped in one `try`/`catch`: any error thrown by the
extraction (`getAllTables`) or the persistence (`upsertMetadata`) lands in
the `catch`, which builds a failure response with all-zero stats and the
error message in `errors`, still writes a run record, and returns the
response as a value.  The external effects are collected in `SyncEnv`; the
two database collections form `SyncWorld`.
-/

/-- The external behaviour a sync run observes. -/
structure SyncEnv where
  /-- Result of `snowflakeService.getAllTables(lastSyncTime)`. -/
  getAllTablesResult : Option Int → Except JsError (List SnowflakeTable)
  /-- Driver semantics of `bulkWrite` inside `upsertMetadata`. -/
  bulkExec : List BulkOp → MetaStore → Except JsError (BulkResult × MetaStore)
  /-- Whether the `sync_stats` insert succeeds. -/
  historyWriteOk : Bool
  /-- `new Date()` at entry. -/
  startTime : Int
  /-- `new Date()` at completion (success or failure). -/
  endTime : Int

/-- The two MongoDB collections the sync reads and writes. -/
structure SyncWorld where
  metaStore : MetaStore
  runLog : List SyncStatsRec
deriving DecidableEq

/-- The failure path of `syncMetadata`'s `catch` block. -/
def syncFailureResponse (e : JsError) (procMs : Int) : SyncResponseDto :=
  { success := false
    message := "Metadata sync failed"
    stats := ⟨0, 0, 0, 0, procMs⟩
    errors := some [errMessage e] }

/-- `syncMetadata` of `MetadataService`: read the watermark, extract,
upsert, record the run, return the response; any extraction or persistence
error is caught and converted into a failure response (still recorded). -/
def syncMetadata (env : SyncEnv) (world : SyncWorld) : SyncResponseDto × SyncWorld :=
  let lastSyncTime := getSyncStats world.runLog
  let procMs := env.endTime - env.startTime
  match env.getAllTablesResult lastSyncTime with
  | .error e =>
      let resp := syncFailureResponse e procMs
      (resp, { world with
               runLog := saveSyncStats env.historyWriteOk world.runLog resp env.startTime env.endTime })
  | .ok tables =>
      match upsertMetadata env.bulkExec tables world.metaStore with
      | .error e =>
          let resp := syncFailureResponse e procMs
          (resp, { world with
                   runLog := saveSyncStats env.historyWriteOk world.runLog resp env.startTime env.endTime })
      | .ok (counts, metaStore', _) =>
          let resp : SyncResponseDto :=
            { success := true
              message := "Metadata sync completed successfully"
              stats := ⟨(tables.length : Int), counts.newTables, counts.updatedTables,
                        counts.skippedTables, procMs⟩
              errors := none }
          (resp, { metaStore := metaStore'
                   runLog := saveSyncStats env.historyWriteOk world.runLog resp env.startTime env.endTime })

/-! ## Extraction, first generation: SHOW-command enumeration

`getAllTablesInAccount` of the first `SnowflakeService` iteration runs
`SHOW DATABASES`, then per database `SHOW SCHEMAS` (errors caught, treated
as zero schemas), per schema `SHOW TABLES` (errors caught, treated as zero
tables), excluding system objects with `isSystemDatabase`/`isSystemSchema`
and applying the incremental filter `shouldSkipTable` per table row.
-/

/-- One `SHOW TABLES` row as the service reads it (`table.name ||
table.NAME`, `table.created_on || table.CREATED_ON`).  `created_on` is a
date value, truthy whenever present. -/
structure ShowTableRow where
  name : Option String
  NAME : Option String
  created_on : Option Int
  CREATED_ON : Option Int
deriving DecidableEq

/-- The warehouse as the SHOW-command tier observes it. -/
structure ShowAccount where
  databasesResult : Except JsError (List String)
  schemasResult : String → Except JsError (List String)
  tablesResult : String → String → Except JsError (List ShowTableRow)

/-- The `(database, schema, table)` triple the extraction emits. -/
structure TableKey where
  database : String
  schema : String
  table : String
deriving DecidableEq

/-- `isSystemDatabase`:
`['SNOWFLAKE', 'INFORMATION_SCHEMA'].includes(dbName?.toUpperCase())`. -/
def isSystemDatabase (dbName : String) : Bool :=
  jsToUpperCase dbName == "SNOWFLAKE" || jsToUpperCase dbName == "INFORMATION_SCHEMA"

/-- `isSystemSchema`: `schemaName?.toUpperCase() === 'INFORMATION_SCHEMA'`. -/
def isSystemSchema (schemaName : String) : Bool :=
  jsToUpperCase schemaName == "INFORMATION_SCHEMA"

/-- `shouldSkipTable`: no `lastSyncTime` means never skip; otherwise skip
exactly the tables whose creation time (defaulting to `Date.now()` when
absent) is not after `lastSyncTime`. -/
def shouldSkipTable (row : ShowTableRow) (lastSyncTime : Option Int) (now : Int) : Bool :=
  match lastSyncTime with
  | none => false
  | some t =>
      let createdTime := ((row.created_on).orElse (fun _ => row.CREATED_ON)).getD now
      createdTime ≤ t

/-- The table name the row contributes: `table.name || table.NAME`
(an absent name yields `undefined`, modelled as the empty string). -/
def tableRowName (row : ShowTableRow) : String :=
  match row.name with
  | some s => if s = "" then (row.NAME).getD "" else s
  | none => (row.NAME).getD ""

/-- `getSchemasForDatabase`: a failed `SHOW SCHEMAS` is caught and yields
zero schemas for that database. -/
def getSchemasForDatabase (acct : ShowAccount) (databaseName : String) : List String :=
  match acct.schemasResult databaseName with
  | .ok rows => rows
  | .error _ => []

/-- `getTablesForSchema`: a failed `SHOW TABLES` is caught and yields zero
tables for that schema. -/
def getTablesForSchema (acct : ShowAccount) (databaseName schemaName : String) :
    List ShowTableRow :=
  match acct.tablesResult databaseName schemaName with
  | .ok rows => rows
  | .error _ => []

/-- `getAllTablesInAccount` of the SHOW-command generation.  A failure of
`SHOW DATABASES` itself is rethrown. -/
def getAllTablesInAccountShow (acct : ShowAccount) (lastSyncTime : Option Int) (now : Int) :
    Except JsError (List TableKey) :=
  match acct.databasesResult with
  | .error e => .error e
  | .ok dbs =>
      .ok ((dbs.filter (fun db => !isSystemDatabase db)).flatMap (fun db =>
        ((getSchemasForDatabase acct db).filter (fun sch => !isSystemSchema sch)).flatMap
          (fun sch =>
            ((getTablesForSchema acct db sch).filter
                (fun row => !shouldSkipTable row lastSyncTime now)).map
              (fun row => ⟨db, sch, tableRowName row⟩))))

/-- The full (never incrementally filtered) catalog of the SHOW-command
tier, for comparison with the `lastSyncTime = none` behaviour. -/
def getAllTablesInAccountShowFull (acct : ShowAccount) : Except JsError (List TableKey) :=
  match acct.databasesResult with
  | .error e => .error e
  | .ok dbs =>
      .ok ((dbs.filter (fun db => !isSystemDatabase db)).flatMap (fun db =>
        ((getSchemasForDatabase acct db).filter (fun sch => !isSystemSchema sch)).flatMap
          (fun sch =>
            (getTablesForSchema acct db sch).map
              (fun row => ⟨db, sch, tableRowName row⟩))))

/-! ## Extraction, second generation: `INFORMATION_SCHEMA.TABLES`

The second `SnowflakeService` iteration issues one set query

`SELECT ... FROM INFORMATION_SCHEMA.TABLES
 WHERE TABLE_SCHEMA != 'INFORMATION_SCHEMA' AND TABLE_CATALOG != 'SNOWFLAKE'
 [AND LAST_ALTERED > lastSyncTime]`

whose string comparisons are exact (Snowflake string equality is
case-sensitive), and on query failure falls back to SHOW commands
(`getDatabases` / `getSchemas` / `getTables`) whose exclusion uses
`toUpperCase`.
-/

/-- One row of the account's `INFORMATION_SCHEMA.TABLES` view. -/
structure InfoSchemaTableRow where
  TABLE_CATALOG : String
  TABLE_SCHEMA : String
  TABLE_NAME : String
  LAST_ALTERED : Int
deriving DecidableEq

/-- The `WHERE` clause of the set query: exact string comparisons, plus
the optional strict `LAST_ALTERED` bound. -/
def infoSchemaWhere (lastSyncTime : Option Int) (r : InfoSchemaTableRow) : Bool :=
  r.TABLE_SCHEMA != "INFORMATION_SCHEMA" && r.TABLE_CATALOG != "SNOWFLAKE" &&
    (match lastSyncTime with
     | none => true
     | some t => t < r.LAST_ALTERED)

/-- The set-query tier: the rows of the view passing the `WHERE` clause,
projected to table keys. -/
def getAllTablesInAccountInfoSchema (rows : List InfoSchemaTableRow)
    (lastSyncTime : Option Int) : List TableKey :=
  (rows.filter (infoSchemaWhere lastSyncTime)).map
    (fun r => ⟨r.TABLE_CATALOG, r.TABLE_SCHEMA, r.TABLE_NAME⟩)

/-- The warehouse as the second generation's SHOW fallback observes it. -/
structure ShowAccountV2 where
  databasesResult : Except JsError (List String)
  schemasResult : String → Except JsError (List String)
  tablesResult : String → String → Except JsError (List String)

/-- `getDatabases` of the fallback: `SHOW DATABASES` filtered by
upper-cased name (errors propagate). -/
def getDatabases (acct : ShowAccountV2) : Except JsError (List String) :=
  match acct.databasesResult with
  | .error e => .error e
  | .ok names =>
      .ok (names.filter (fun name =>
        !(jsToUpperCase name == "INFORMATION_SCHEMA" || jsToUpperCase name == "SNOWFLAKE")))

/-- `getSchemas` of the fallback: filtered by upper-cased name (errors
propagate). -/
def getSchemas (acct : ShowAccountV2) (database : String) : Except JsError (List String) :=
  match acct.schemasResult database with
  | .error e => .error e
  | .ok names => .ok (names.filter (fun name => !(jsToUpperCase name == "INFORMATION_SCHEMA")))

/-- `getTables` of the fallback: a failure is caught and yields zero
tables for that schema. -/
def getTables (acct : ShowAccountV2) (database schema : String) : List String :=
  match acct.tablesResult database schema with
  | .ok names => names
  | .error _ => []

/-- The per-database loop of `getAllTablesWithShowCommands`: a `getSchemas`
failure aborts the whole fallback (it carries no `try`/`catch`). -/
def showCommandsLoop (acct : ShowAccountV2) : List String → Except JsError (List TableKey)
  | [] => .ok []
  | db :: rest =>
    match getSchemas acct db with
    | .error e => .error e
    | .ok schemas =>
        match showCommandsLoop acct rest with
        | .error e => .error e
        | .ok tail =>
            .ok (schemas.flatMap (fun sch =>
              (getTables acct db sch).map (fun tbl => (⟨db, sch, tbl⟩ : TableKey))) ++ tail)

/-- `getAllTablesWithShowCommands` of the second generation: sequential
SHOW enumeration with no incremental filtering. -/
def getAllTablesWithShowCommands (acct : ShowAccountV2) : Except JsError (List TableKey) :=
  match getDatabases acct with
  | .error e => .error e
  | .ok dbs => showCommandsLoop acct dbs

/-- `getAllTablesInAccount` of the second generation: the set query over
the `INFORMATION_SCHEMA.TABLES` view (`tablesView` is its full content, or
the query's failure), falling back to SHOW commands on failure. -/
def getAllTablesInAccountV2 (tablesView : Except JsError (List InfoSchemaTableRow))
    (fallback : ShowAccountV2) (lastSyncTime : Option Int) : Except JsError (List TableKey) :=
  match tablesView with
  | .ok rows => .ok (getAllTablesInAccountInfoSchema rows lastSyncTime)
  | .error _ => getAllTablesWithShowCommands fallback

/-! ## Connection lifecycle of `getAllTables`

`getAllTables` creates the connection, connects, extracts, disconnects and
returns; its `catch` disconnects and rethrows.  `disconnect` itself never
rejects.  Each match arm below mirrors one control path of the source.
-/

/-- Observable connection events. -/
inductive ConnEvent where
  | connectCall
  | disconnectCall
deriving DecidableEq

/-- The external behaviour one `getAllTables` call observes. -/
structure LifecycleEnv where
  connectResult : Except JsError Unit
  extractResult : Except JsError (List SnowflakeTable)

/-- `getAllTables` of `SnowflakeService`, with its connect/disconnect
trace.  The `catch` path disconnects before rethrowing the error
unchanged. -/
def getAllTables (env : LifecycleEnv) :
    Except JsError (List SnowflakeTable) × List ConnEvent :=
  match env.connectResult with
  | .error e => (.error e, [ConnEvent.connectCall, ConnEvent.disconnectCall])
  | .ok _ =>
      match env.extractResult with
      | .error e => (.error e, [ConnEvent.connectCall, ConnEvent.disconnectCall])
      | .ok ts => (.ok ts, [ConnEvent.connectCall, ConnEvent.disconnectCall])

/-! ## The retrying query executor

Modelled from the spec: the retry-bearing `executeQuery` of
`SnowflakeService` is absent from the repository snapshot (its unit tests
exercise `isRetryableError`, `retryCount` and the backoff delays, but the
shipped `executeQuery` performs a single attempt).  Per the spec:
classification by a fixed keyword set over the lower-cased message or a
fixed set of transient vendor codes; up to `maxRetries` (default 3)
attempts; the delay before attempt `n` (n ≥ 2) is `2^(n-2) * 1000` ms; on
exhaustion or a terminal error the last error is surfaced unchanged.
-/

/-- The spec's retryable-message keyword set. -/
def retryableKeywords : List String :=
  ["timeout", "connection", "network", "temporary", "rate limit",
   "service unavailable", "connection lost", "query timeout",
   "warehouse suspended", "session expired"]

/-- The transient vendor codes the unit tests exercise. -/
def retryableCodes : List String := ["100072", "100073"]

/-- Modelled from the spec: `isRetryableError` — the message matches a
retryable keyword, or the error carries a transient vendor code. -/
def isRetryableError (e : JsError) : Bool :=
  (retryableKeywords.any fun k => jsIncludes (jsToLowerCase (errMessage e)) k) ||
    (match e.code with
     | some c => retryableCodes.contains c
     | none => false)

/-- The default retry budget. -/
def defaultMaxRetries : Nat := 3

/-- The backoff delay in milliseconds before attempt `n` (for n ≥ 2):
`2^(n-2) * 1000`. -/
def retryDelayMs (n : Nat) : Nat := 2 ^ (n - 2) * 1000

/-- What one run of the retrying executor produced: the surfaced result,
the number of the last attempt made, and the backoff delays slept (in
order). -/
structure RetryTrace (α : Type) where
  result : Except JsError α
  attemptsMade : Nat
  delays : List Nat

/-- Modelled from the spec: the retry loop.  `attemptResult n` is the
outcome of the n-th attempt (1-based); `fuel` is the number of retries
still allowed. -/
def runAttempts (attemptResult : Nat → Except JsError α) : Nat → Nat → RetryTrace α
  | 0, n =>
    (match attemptResult n with
     | .ok v => ⟨.ok v, n, []⟩
     | .error e => ⟨.error e, n, []⟩)
  | fuel' + 1, n =>
    (match attemptResult n with
     | .ok v => ⟨.ok v, n, []⟩
     | .error e =>
         if isRetryableError e then
           let rest := runAttempts attemptResult fuel' (n + 1)
           ⟨rest.result, rest.attemptsMade, retryDelayMs (n + 1) :: rest.delays⟩
         else ⟨.error e, n, []⟩)

/-- Modelled from the spec: the retrying query executor — up to
`maxRetries` attempts starting at attempt 1. -/
def executeQueryWithRetry (attemptResult : Nat → Except JsError α) (maxRetries : Nat) :
    RetryTrace α :=
  runAttempts attemptResult (maxRetries - 1) 1

/-! ## Order-theoretic facts about the column comparator -/

theorem charsLe_total (l1 l2 : List Char) : charsLe l1 l2 = true ∨ charsLe l2 l1 = true := by
  induction l1 generalizing l2 with
  | nil => left; rfl
  | cons a as ih =>
      cases l2 with
      | nil => right; rfl
      | cons b bs =>
          by_cases h1 : a.toNat < b.toNat
          · left; simp [charsLe, h1]
          · by_cases h2 : b.toNat < a.toNat
            · right; simp [charsLe, h1, h2]
            · rcases ih bs with h | h
              · left; simp [charsLe, h1, h2, h]
              · right; simp [charsLe, h1, h2, h]

theorem charsLe_trans {l1 l2 l3 : List Char} (h12 : charsLe l1 l2 = true)
    (h23 : charsLe l2 l3 = true) : charsLe l1 l3 = true := by
  induction l1 generalizing l2 l3 with
  | nil => rfl
  | cons a as ih =>
      cases l2 with
      | nil => simp [charsLe] at h12
      | cons b bs =>
          cases l3 with
          | nil => simp [charsLe] at h23
          | cons c cs =>
              simp only [charsLe] at h12 h23 ⊢
              split at h12
              · split at h23
                · simp; omega
                · split at h23
                  · simp at h23
                  · simp; omega
              · split at h12
                · simp at h12
                · split at h23
                  · simp; omega
                  · split at h23
                    · simp at h23
                    · have : ¬ a.toNat < c.toNat ∧ ¬ c.toNat < a.toNat := by omega
                      simp [this.1, this.2]
                      exact ih h12 h23

theorem char_eq_of_toNat_eq {a b : Char} (h : a.toNat = b.toNat) : a = b :=
  Char.ext (UInt32.ext h)

theorem charsLe_antisymm : ∀ {l1 l2 : List Char}, charsLe l1 l2 = true →
    charsLe l2 l1 = true → l1 = l2
  | [], [], _, _ => rfl
  | [], _ :: _, _, h21 => by simp [charsLe] at h21
  | _ :: _, [], h12, _ => by simp [charsLe] at h12
  | a :: as, b :: bs, h12, h21 => by
      simp only [charsLe] at h12 h21
      split at h12
      · split at h21
        · omega
        · simp at h21
      · split at h12
        · simp at h12
        · have hab : a = b := by
            apply char_eq_of_toNat_eq
            omega
          subst hab
          simp only [if_neg (lt_irrefl a.toNat)] at h12 h21
          exact congrArg (a :: ·) (charsLe_antisymm h12 h21)

theorem strLe_antisymm {a b : String} (h1 : strLe a b = true) (h2 : strLe b a = true) : a = b :=
  String.ext (charsLe_antisymm h1 h2)

instance : IsTotal SfColumn colR :=
  ⟨fun a b => charsLe_total a.name.data b.name.data⟩

instance : IsTrans SfColumn colR :=
  ⟨fun _ _ _ h1 h2 => charsLe_trans h1 h2⟩

/-- The strict version of the column ordering, used to transport sorted
permutations with pairwise-distinct names to equality. -/
def colLT (a b : SfColumn) : Prop := colR a b ∧ a.name ≠ b.name

instance : IsAntisymm SfColumn colLT :=
  ⟨fun _ _ h1 h2 => absurd (strLe_antisymm h1.1 h2.1) h1.2⟩

theorem sortColumns_perm (l : List SfColumn) : (sortColumns l).Perm l :=
  List.perm_insertionSort colR l

theorem sortColumns_sorted (l : List SfColumn) : List.Sorted colR (sortColumns l) :=
  List.sorted_insertionSort colR l

theorem sorted_colLT_of_nodup {l : List SfColumn} (h : List.Sorted colR l)
    (hn : (l.map SfColumn.name).Nodup) : List.Sorted colLT l := by
  have hne : List.Pairwise (fun a b : SfColumn => a.name ≠ b.name) l :=
    List.pairwise_map.mp hn
  exact h.and hne

theorem sortColumns_eq_of_perm {l1 l2 : List SfColumn} (h : l1.Perm l2)
    (hn : (l1.map SfColumn.name).Nodup) : sortColumns l1 = sortColumns l2 := by
  have p1 := sortColumns_perm l1
  have p2 := sortColumns_perm l2
  have p : (sortColumns l1).Perm (sortColumns l2) := p1.trans (h.trans p2.symm)
  have hn1 : ((sortColumns l1).map SfColumn.name).Nodup :=
    ((p1.map SfColumn.name).symm).nodup hn
  have hn2 : ((sortColumns l2).map SfColumn.name).Nodup :=
    ((p2.map SfColumn.name).symm).nodup ((h.map SfColumn.name).nodup hn)
  exact List.eq_of_perm_of_sorted p
    (sorted_colLT_of_nodup (sortColumns_sorted l1) hn1)
    (sorted_colLT_of_nodup (sortColumns_sorted l2) hn2)

/-! ## Retry executor: helper lemma -/

theorem runAttempts_spec {α : Type} (f : Nat → Except JsError α) :
    ∀ fuel n,
      n ≤ (runAttempts f fuel n).attemptsMade ∧
      (runAttempts f fuel n).attemptsMade ≤ n + fuel ∧
      (runAttempts f fuel n).delays =
        (List.range ((runAttempts f fuel n).attemptsMade - n)).map
          (fun i => retryDelayMs (n + 1 + i)) ∧
      (runAttempts f fuel n).result = f (runAttempts f fuel n).attemptsMade ∧
      (∀ k, n ≤ k → k < (runAttempts f fuel n).attemptsMade →
        ∃ e, f k = .error e ∧ isRetryableError e = true) := by
  intro fuel
  induction fuel with
  | zero =>
      intro n
      cases hf : f n <;>
        simp [runAttempts, hf] <;>
        omega
  | succ fuel' ih =>
      intro n
      cases hf : f n with
      | ok v =>
          simp [runAttempts, hf]
          omega
      | error e =>
          by_cases hr : isRetryableError e = true
          · obtain ⟨ih1, ih2, ih3, ih4, ih5⟩ := ih (n + 1)
            have hrw : runAttempts f (fuel' + 1) n =
                ⟨(runAttempts f fuel' (n + 1)).result,
                 (runAttempts f fuel' (n + 1)).attemptsMade,
                 retryDelayMs (n + 1) :: (runAttempts f fuel' (n + 1)).delays⟩ := by
              simp [runAttempts, hf, hr]
            rw [hrw]
            dsimp only
            refine ⟨by omega, by omega, ?_, ih4, ?_⟩
            · have hk : (runAttempts f fuel' (n + 1)).attemptsMade - n =
                  ((runAttempts f fuel' (n + 1)).attemptsMade - (n + 1)) + 1 := by omega
              rw [hk, List.range_succ_eq_map, List.map_cons, List.map_map]
              refine congrArg₂ _ (by simp) ?_
              rw [ih3]
              refine List.map_congr_left (fun i _ => ?_)
              simp [Function.comp]
              ring_nf
            · intro k hk1 hk2
              rcases Nat.eq_or_lt_of_le hk1 with heq | hlt
              · exact ⟨e, heq ▸ hf, hr⟩
              · exact ih5 k hlt hk2
          · simp [runAttempts, hf, hr]
            omega

/-- C1: for every query, the retrying executor (modelled from the spec, the
retry-bearing `executeQuery` being absent from the snapshot) makes between
1 and `maxRetries` attempts (default 3), sleeps `2^(n-2) * 1000` ms before
attempt n for every n ≥ 2, retries only attempts that failed with a
retryable error, and surfaces the outcome of the last attempt — in
particular the last underlying error — to the caller unchanged. -/
theorem executeQueryWithRetry_policy {α : Type} (attemptResult : Nat → Except JsError α)
    (maxRetries : Nat) (hmr : 1 ≤ maxRetries) :
    defaultMaxRetries = 3 ∧
    1 ≤ (executeQueryWithRetry attemptResult maxRetries).attemptsMade ∧
    (executeQueryWithRetry attemptResult maxRetries).attemptsMade ≤ maxRetries ∧
    (executeQueryWithRetry attemptResult maxRetries).delays =
      (List.range ((executeQueryWithRetry attemptResult maxRetries).attemptsMade - 1)).map
        (fun i => retryDelayMs (i + 2)) ∧
    (∀ k, 1 ≤ k → k < (executeQueryWithRetry attemptResult maxRetries).attemptsMade →
      ∃ e, attemptResult k = .error e ∧ isRetryableError e = true) ∧
    (executeQueryWithRetry attemptResult maxRetries).result =
      attemptResult (executeQueryWithRetry attemptResult maxRetries).attemptsMade := by
  obtain ⟨h1, h2, h3, h4, h5⟩ := runAttempts_spec attemptResult (maxRetries - 1) 1
  refine ⟨rfl, h1, by unfold executeQueryWithRetry; omega, ?_, h5, h4⟩
  unfold executeQueryWithRetry
  rw [h3]
  refine List.map_congr_left (fun i _ => ?_)
  ring_nf

/-- Witness attempt sequence: two retryable failures, then success. -/
def retryWitAttempt (n : Nat) : Except JsError (List Nat) :=
  if n < 3 then .error ⟨some "connection timeout", none⟩ else .ok [1]

/-- Witness for C1 at `maxRetries = 3`. -/
theorem executeQueryWithRetry_policy_witness :
    1 ≤ 3 ∧
      (defaultMaxRetries = 3 ∧
        1 ≤ (executeQueryWithRetry retryWitAttempt 3).attemptsMade ∧
        (executeQueryWithRetry retryWitAttempt 3).attemptsMade ≤ 3 ∧
        (executeQueryWithRetry retryWitAttempt 3).delays =
          (List.range ((executeQueryWithRetry retryWitAttempt 3).attemptsMade - 1)).map
            (fun i => retryDelayMs (i + 2)) ∧
        (∀ k, 1 ≤ k → k < (executeQueryWithRetry retryWitAttempt 3).attemptsMade →
          ∃ e, retryWitAttempt k = .error e ∧ isRetryableError e = true) ∧
        (executeQueryWithRetry retryWitAttempt 3).result =
          retryWitAttempt (executeQueryWithRetry retryWitAttempt 3).attemptsMade) :=
  ⟨by decide, executeQueryWithRetry_policy retryWitAttempt 3 (by decide)⟩

/-! ## Fingerprint properties (claim C2) -/

/-- Two columns sharing the name `A` but differing in content. -/
def dupColInt : SfColumn := ⟨"A", "INT", false, none, none⟩

/-- The second duplicate-named column. -/
def dupColText : SfColumn := ⟨"A", "TEXT", false, none, none⟩

/-- A table whose two columns share a name. -/
def dupColsTableA : SnowflakeTable := ⟨"DB", "PUBLIC", "T", [dupColInt, dupColText]⟩

/-- The same table with its columns permuted. -/
def dupColsTableB : SnowflakeTable := ⟨"DB", "PUBLIC", "T", [dupColText, dupColInt]⟩

/-- C2 counterexample: the fingerprint is not invariant under every column
permutation — for a table with two equally-named columns the stable sort
preserves the input order, so the two orders hash differently. -/
theorem generateChecksum_not_order_independent :
    dupColsTableB.columns.Perm dupColsTableA.columns ∧
      generateChecksum dupColsTableA ≠ generateChecksum dupColsTableB := by
  exact ⟨by decide, by decide⟩

/-- C2 (amended): the fingerprint is a pure, deterministic function of the
column sequence, and is independent of the input order of the columns
whenever the column names are pairwise distinct (for duplicate names the
stable sort preserves input order, see the counterexample). -/
theorem generateChecksum_deterministic_and_order_independent
    (t1 t2 : SnowflakeTable) (hp : t2.columns.Perm t1.columns)
    (hn : (t1.columns.map SfColumn.name).Nodup) :
    generateChecksum t1 = generateChecksum t1 ∧
      generateChecksum t2 = generateChecksum t1 := by
  refine ⟨rfl, ?_⟩
  unfold generateChecksum
  rw [sortColumns_eq_of_perm hp ((hp.map SfColumn.name).symm.nodup
    ((hp.map SfColumn.name).nodup ((hp.map SfColumn.name).symm.nodup hn)))]

/-- Witness table for C2, distinct column names. -/
def witTableA : SnowflakeTable :=
  ⟨"DB1", "PUBLIC", "USERS", [⟨"ID", "NUMBER", false, none, none⟩,
                              ⟨"NAME", "VARCHAR", true, none, none⟩]⟩

/-- The witness table with its columns permuted. -/
def witTableB : SnowflakeTable :=
  ⟨"DB1", "PUBLIC", "USERS", [⟨"NAME", "VARCHAR", true, none, none⟩,
                              ⟨"ID", "NUMBER", false, none, none⟩]⟩

/-- Witness for C2 at a concrete two-column table. -/
theorem generateChecksum_order_independent_witness :
    (witTableB.columns.Perm witTableA.columns ∧
        (witTableA.columns.map SfColumn.name).Nodup) ∧
      generateChecksum witTableA = generateChecksum witTableA ∧
      generateChecksum witTableB = generateChecksum witTableA :=
  ⟨⟨by decide, by decide⟩,
    generateChecksum_deterministic_and_order_independent witTableA witTableB
      (by decide) (by decide)⟩

/-! ## Watermark (claim C7) -/

theorem syncMaxFold_ne_none (l : List SyncStatsRec) (r0 : SyncStatsRec) (acc : Option Int) :
    (r0 :: l).foldl
      (fun acc r =>
        match acc with
        | none => some r.syncEndTime
        | some t => some (max t r.syncEndTime)) acc ≠ none := by
  induction l generalizing r0 acc with
  | nil => cases acc <;> simp
  | cons r1 rest ih =>
      have h1 := ih r1 (match acc with
        | none => some r0.syncEndTime
        | some t => some (max t r0.syncEndTime))
      simpa using h1

theorem syncMaxFold_spec (l : List SyncStatsRec) :
    ∀ (acc : Option Int) (t : Int),
      l.foldl
        (fun acc r =>
          match acc with
          | none => some r.syncEndTime
          | some t => some (max t r.syncEndTime)) acc = some t →
      (acc = some t ∨ ∃ r ∈ l, r.syncEndTime = t) ∧
        (∀ r ∈ l, r.syncEndTime ≤ t) ∧ (∀ u, acc = some u → u ≤ t) := by
  induction l with
  | nil =>
      intro acc t h
      simp only [List.foldl_nil] at h
      exact ⟨Or.inl h, by simp, fun u hu => by rw [h] at hu; injection hu; omega⟩
  | cons r rest ih =>
      intro acc t h
      simp only [List.foldl_cons] at h
      cases acc with
      | none =>
          obtain ⟨h1, h2, h3⟩ := ih (some r.syncEndTime) t h
          have hrt : r.syncEndTime ≤ t := h3 _ rfl
          refine ⟨?_, ?_, by simp⟩
          · rcases h1 with h1 | ⟨r', hr', ht⟩
            · exact Or.inr ⟨r, List.mem_cons_self r rest, by injection h1⟩
            · exact Or.inr ⟨r', List.mem_cons_of_mem r hr', ht⟩
          · intro r' hr'
            rcases List.mem_cons.mp hr' with rfl | hr'
            · exact hrt
            · exact h2 r' hr'
      | some u =>
          obtain ⟨h1, h2, h3⟩ := ih (some (max u r.syncEndTime)) t h
          have hmax : max u r.syncEndTime ≤ t := h3 _ rfl
          refine ⟨?_, ?_, ?_⟩
          · rcases h1 with h1 | ⟨r', hr', ht⟩
            · have : max u r.syncEndTime = t := by injection h1
              rcases max_choice u r.syncEndTime with hc | hc
              · exact Or.inl (by rw [← this, hc])
              · exact Or.inr ⟨r, List.mem_cons_self r rest, by rw [← this, hc]⟩
            · exact Or.inr ⟨r', List.mem_cons_of_mem r hr', ht⟩
          · intro r' hr'
            rcases List.mem_cons.mp hr' with rfl | hr'
            · exact le_trans (le_max_right u r'.syncEndTime) hmax
            · exact h2 r' hr'
          · intro v hv
            injection hv with hv
            exact le_trans (hv ▸ le_max_left u r.syncEndTime) hmax

/-- C7: the watermark `getSyncStats` feeds into the start of a sync is the
latest `syncEndTime` among recorded runs with `success = true`, and is
absent exactly when no successful run record exists. -/
theorem getSyncStats_watermark (runs : List SyncStatsRec) :
    (getSyncStats runs = none ↔ ∀ r ∈ runs, r.success = false) ∧
      (∀ t, getSyncStats runs = some t →
        (∃ r ∈ runs, r.success = true ∧ r.syncEndTime = t) ∧
          ∀ r ∈ runs, r.success = true → r.syncEndTime ≤ t) := by
  constructor
  · constructor
    · intro h r hr
      by_contra hs
      have hs' : r.success = true := by revert hs; cases r.success <;> simp
      cases hf : runs.filter (fun r => r.success) with
      | nil =>
          have hm : r ∈ runs.filter (fun r => r.success) := List.mem_filter.mpr ⟨hr, hs'⟩
          rw [hf] at hm
          simp at hm
      | cons r0 rest =>
          unfold getSyncStats at h
          rw [hf] at h
          exact absurd h (syncMaxFold_ne_none rest r0 none)
    · intro h
      unfold getSyncStats
      have : runs.filter (fun r => r.success) = [] :=
        List.filter_eq_nil_iff.mpr (fun r hr => by simp [h r hr])
      rw [this]
      rfl
  · intro t ht
    unfold getSyncStats at ht
    obtain ⟨h1, h2, _⟩ := syncMaxFold_spec (runs.filter (fun r => r.success)) none t ht
    constructor
    · rcases h1 with h1 | ⟨r, hr, hrt⟩
      · exact absurd h1 (by simp)
      · obtain ⟨hrm, hrs⟩ := List.mem_filter.mp hr
        exact ⟨r, hrm, by simpa using hrs, hrt⟩
    · intro r hr hs
      exact h2 r (List.mem_filter.mpr ⟨hr, by simp [hs]⟩)

/-- Concrete run log for the C7 witness: successes ending at 5 and 9, one
later failure ending at 12. -/
def witRuns : List SyncStatsRec :=
  [⟨0, 5, true, 1, 1, 0, 0, 5, [], "ok"⟩,
   ⟨6, 9, true, 1, 0, 1, 0, 3, [], "ok"⟩,
   ⟨10, 12, false, 0, 0, 0, 0, 2, ["boom"], "failed"⟩]

/-- Witness for C7: on the concrete log the watermark is 9, and the
characterisation theorem instantiates to it. -/
theorem getSyncStats_watermark_witness :
    getSyncStats witRuns = some 9 ∧
      ((getSyncStats witRuns = none ↔ ∀ r ∈ witRuns, r.success = false) ∧
        (∀ t, getSyncStats witRuns = some t →
          (∃ r ∈ witRuns, r.success = true ∧ r.syncEndTime = t) ∧
            ∀ r ∈ witRuns, r.success = true → r.syncEndTime ≤ t)) :=
  ⟨by decide, getSyncStats_watermark witRuns⟩

/-! ## History-write failure is swallowed (claim C8) -/

/-- C8: the response `syncMetadata` returns is identical whether or not the
run-history write succeeds, on the success path and on the failure path
alike — a failed `saveSyncStats` is logged and swallowed, never changing
the computed sync result. -/
theorem syncMetadata_result_ignores_history_write (env : SyncEnv) (world : SyncWorld) :
    (syncMetadata { env with historyWriteOk := true } world).1 =
      (syncMetadata { env with historyWriteOk := false } world).1 := by
  cases h1 : env.getAllTablesResult (getSyncStats world.runLog) with
  | error e => simp [syncMetadata, h1]
  | ok tables =>
      cases h2 : upsertMetadata env.bulkExec tables world.metaStore with
      | error e => simp [syncMetadata, h1, h2]
      | ok x => simp [syncMetadata, h1, h2]

/-- Concrete environment for the C8/C4 witnesses: extraction fails with a
permanent error. -/
def witFailEnv : SyncEnv :=
  { getAllTablesResult := fun _ => .error ⟨some "Permanent database error", none⟩
    bulkExec := mongoBulkExec
    historyWriteOk := true
    startTime := 100
    endTime := 250 }

/-- Concrete world for the C8/C4 witnesses. -/
def witWorld : SyncWorld := { metaStore := [], runLog := [] }

/-- Witness for C8 at a concrete environment. -/
theorem syncMetadata_result_ignores_history_write_witness :
    (syncMetadata { witFailEnv with historyWriteOk := true } witWorld).1 =
      (syncMetadata { witFailEnv with historyWriteOk := false } witWorld).1 :=
  syncMetadata_result_ignores_history_write witFailEnv witWorld

/-! ## The orchestrator's failure path (claim C4) -/

/-- C4: every extraction or persistence error is caught by `syncMetadata`
and converted into a returned failure value — `success = false`, all four
table counts zero, the error message captured in `errors` — the metadata
store is untouched, and (when the history write itself succeeds) a run
record with `success = false` is still appended. -/
theorem syncMetadata_failure_path (env : SyncEnv) (world : SyncWorld) (e : JsError)
    (hfail : env.getAllTablesResult (getSyncStats world.runLog) = .error e ∨
      ∃ tables, env.getAllTablesResult (getSyncStats world.runLog) = .ok tables ∧
        upsertMetadata env.bulkExec tables world.metaStore = .error e) :
    (syncMetadata env world).1.success = false ∧
      (syncMetadata env world).1.stats.totalTables = 0 ∧
      (syncMetadata env world).1.stats.newTables = 0 ∧
      (syncMetadata env world).1.stats.updatedTables = 0 ∧
      (syncMetadata env world).1.stats.skippedTables = 0 ∧
      (syncMetadata env world).1.errors = some [errMessage e] ∧
      (syncMetadata env world).2.metaStore = world.metaStore ∧
      (env.historyWriteOk = true →
        (syncMetadata env world).2.runLog =
          world.runLog ++ [runRecordOf (syncFailureResponse e (env.endTime - env.startTime))
            env.startTime env.endTime] ∧
          (runRecordOf (syncFailureResponse e (env.endTime - env.startTime))
            env.startTime env.endTime).success = false) := by
  rcases hfail with h | ⟨tables, hok, herr⟩
  · simp [syncMetadata, h, saveSyncStats, runRecordOf, syncFailureResponse]
  · simp [syncMetadata, hok, herr, saveSyncStats, runRecordOf, syncFailureResponse]

/-- Witness for C4 at the concrete failing environment. -/
theorem syncMetadata_failure_path_witness :
    (syncMetadata witFailEnv witWorld).1.success = false ∧
      (syncMetadata witFailEnv witWorld).1.stats.totalTables = 0 ∧
      (syncMetadata witFailEnv witWorld).1.stats.newTables = 0 ∧
      (syncMetadata witFailEnv witWorld).1.stats.updatedTables = 0 ∧
      (syncMetadata witFailEnv witWorld).1.stats.skippedTables = 0 ∧
      (syncMetadata witFailEnv witWorld).1.errors =
        some [errMessage ⟨some "Permanent database error", none⟩] ∧
      (syncMetadata witFailEnv witWorld).2.metaStore = witWorld.metaStore ∧
      (witFailEnv.historyWriteOk = true →
        (syncMetadata witFailEnv witWorld).2.runLog =
          witWorld.runLog ++ [runRecordOf (syncFailureResponse
            ⟨some "Permanent database error", none⟩
            (witFailEnv.endTime - witFailEnv.startTime)) witFailEnv.startTime witFailEnv.endTime] ∧
          (runRecordOf (syncFailureResponse ⟨some "Permanent database error", none⟩
            (witFailEnv.endTime - witFailEnv.startTime))
            witFailEnv.startTime witFailEnv.endTime).success = false) :=
  syncMetadata_failure_path witFailEnv witWorld ⟨some "Permanent database error", none⟩
    (Or.inl rfl)

/-! ## Connection lifecycle (claim C9) -/

/-- C9: every `getAllTables` run disconnects exactly once, as its final
connection event, on the success path and on every error path, and
surfaces the underlying outcome unchanged (the `catch` disconnects before
rethrowing). -/
theorem getAllTables_always_disconnects (env : LifecycleEnv) :
    (getAllTables env).2.getLast? = some ConnEvent.disconnectCall ∧
      (getAllTables env).2.count ConnEvent.disconnectCall = 1 ∧
      (∀ e, env.connectResult = .error e → (getAllTables env).1 = .error e) ∧
      (∀ u, env.connectResult = .ok u → (getAllTables env).1 = env.extractResult) := by
  cases hc : env.connectResult with
  | error e =>
      refine ⟨by simp [getAllTables, hc], by simp [getAllTables, hc], ?_, ?_⟩
      · intro e' he
        injection he with he
        simp [getAllTables, hc, he]
      · intro u hu
        exact absurd hu (by simp)
  | ok u =>
      cases hx : env.extractResult with
      | error e =>
          refine ⟨by simp [getAllTables, hc, hx], by simp [getAllTables, hc, hx], ?_, ?_⟩
          · intro e' he
            exact absurd he (by simp)
          · intro u' _
            simp [getAllTables, hc, hx]
      | ok ts =>
          refine ⟨by simp [getAllTables, hc, hx], by simp [getAllTables, hc, hx], ?_, ?_⟩
          · intro e' he
            exact absurd he (by simp)
          · intro u' _
            simp [getAllTables, hc, hx]

/-- Concrete lifecycle environment for the C9 witness: extraction fails. -/
def witLifecycleEnv : LifecycleEnv :=
  { connectResult := .ok ()
    extractResult := .error ⟨some "network error", none⟩ }

/-- Witness for C9 at a concrete environment whose extraction fails. -/
theorem getAllTables_always_disconnects_witness :
    (getAllTables witLifecycleEnv).2.getLast? = some ConnEvent.disconnectCall ∧
      (getAllTables witLifecycleEnv).2.count ConnEvent.disconnectCall = 1 ∧
      (∀ e, witLifecycleEnv.connectResult = .error e →
        (getAllTables witLifecycleEnv).1 = .error e) ∧
      (∀ u, witLifecycleEnv.connectResult = .ok u →
        (getAllTables witLifecycleEnv).1 = witLifecycleEnv.extractResult) :=
  getAllTables_always_disconnects witLifecycleEnv

/-! ## Counting lemmas for the bulk write (claim C3) -/

/-- A driver-behaviour bound every real MongoDB bulk write satisfies: the
reported `insertedCount`/`modifiedCount` cannot exceed the number of
corresponding operations submitted. -/
def WellBehavedBulk
    (bulk : List BulkOp → MetaStore → Except JsError (BulkResult × MetaStore)) : Prop :=
  ∀ ops store res store', bulk ops store = .ok (res, store') →
    res.insertedCount ≤ countInserts ops ∧ res.modifiedCount ≤ countUpdates ops

theorem buildOps_counts_le (all : List SnowflakeTable) (store : MetaStore) :
    ∀ ts : List SnowflakeTable,
      countInserts (ts.foldr (buildOp all store) []) +
        countUpdates (ts.foldr (buildOp all store) []) ≤ ts.length := by
  intro ts
  induction ts with
  | nil => simp [countInserts, countUpdates]
  | cons t rest ih =>
      simp only [List.foldr_cons, List.length_cons]
      simp only [countInserts, countUpdates] at ih
      cases hex : existingFor store t with
      | none =>
          simp [buildOp, hex, countInserts, countUpdates, List.countP_cons]
          omega
      | some r0 =>
          by_cases hc : r0.checksum ≠ checksumFor all t
          · simp [buildOp, hex, if_pos hc, countInserts, countUpdates, List.countP_cons]
            omega
          · simp [buildOp, hex, if_neg hc, countInserts, countUpdates]
            omega

theorem applyBulkOp_counts (acc : BulkResult × MetaStore) (op : BulkOp) :
    (applyBulkOp acc op).1.insertedCount ≤ acc.1.insertedCount + countInserts [op] ∧
      (applyBulkOp acc op).1.modifiedCount ≤ acc.1.modifiedCount + countUpdates [op] := by
  cases op with
  | insertOne doc =>
      by_cases hd : (acc.2.any fun r => recKeyEq r doc.database doc.schema doc.table) = true
      · simp [applyBulkOp, hd, countInserts, countUpdates]
      · simp [applyBulkOp, hd, countInserts, countUpdates]
  | updateOne db sch tbl cols cs =>
      cases hm : (updateFirst db sch tbl cols cs acc.2).1 <;>
        simp [applyBulkOp, hm, countInserts, countUpdates]

theorem foldl_applyBulkOp_counts :
    ∀ (ops : List BulkOp) (acc : BulkResult × MetaStore),
      (ops.foldl applyBulkOp acc).1.insertedCount ≤ acc.1.insertedCount + countInserts ops ∧
        (ops.foldl applyBulkOp acc).1.modifiedCount ≤ acc.1.modifiedCount + countUpdates ops := by
  intro ops
  induction ops with
  | nil => intro acc; simp [countInserts, countUpdates]
  | cons op rest ih =>
      intro acc
      simp only [List.foldl_cons]
      obtain ⟨h1, h2⟩ := ih (applyBulkOp acc op)
      obtain ⟨g1, g2⟩ := applyBulkOp_counts acc op
      simp only [countInserts, countUpdates, List.countP_cons, List.countP_nil] at g1 g2 ⊢
      simp only [countInserts, countUpdates] at h1 h2
      omega

theorem mongoBulkExec_wellBehaved : WellBehavedBulk mongoBulkExec := by
  intro ops store res store' h
  unfold mongoBulkExec at h
  injection h with h
  obtain ⟨h1, h2⟩ := foldl_applyBulkOp_counts ops (⟨0, 0⟩, store)
  rw [h] at h1 h2
  constructor
  · simpa using h1
  · simpa using h2

/-- C3: `upsertMetadata` returns non-negative counts summing to the length
of its input (for every driver behaviour within the MongoDB bounds, partial
bulk failures included), and consequently every run record `syncMetadata`
appends satisfies `totalTables = newTables + updatedTables +
skippedTables`. -/
theorem upsertMetadata_counts :
    (∀ bulk tables store counts store' tabs',
        WellBehavedBulk bulk →
        upsertMetadata bulk tables store = .ok (counts, store', tabs') →
        0 ≤ counts.newTables ∧ 0 ≤ counts.updatedTables ∧ 0 ≤ counts.skippedTables ∧
          counts.newTables + counts.updatedTables + counts.skippedTables =
            (tables.length : Int)) ∧
    (∀ env world r, WellBehavedBulk env.bulkExec →
        r ∈ (syncMetadata env world).2.runLog →
        r ∈ world.runLog ∨
          r.totalTables = r.newTables + r.updatedTables + r.skippedTables) := by
  have part1 : ∀ bulk tables store counts store' tabs',
      WellBehavedBulk bulk →
      upsertMetadata bulk tables store = .ok (counts, store', tabs') →
      0 ≤ counts.newTables ∧ 0 ≤ counts.updatedTables ∧ 0 ≤ counts.skippedTables ∧
        counts.newTables + counts.updatedTables + counts.skippedTables =
          (tables.length : Int) := by
    intro bulk tables store counts store' tabs' hwb h
    cases tables with
    | nil =>
        simp only [upsertMetadata, List.isEmpty_nil, if_true, Except.ok.injEq,
          Prod.mk.injEq] at h
        obtain ⟨hc, -⟩ := h
        subst hc
        simp
    | cons t ts =>
        cases hops : buildOps ((t :: ts).map sortTable) store with
        | nil =>
            simp only [upsertMetadata] at h
            rw [hops] at h
            simp at h
            obtain ⟨hc, -, -⟩ := h
            subst hc
            refine ⟨?_, ?_, ?_, ?_⟩ <;> (try dsimp only) <;>
              (try simp only [List.length_cons]) <;> omega
        | cons o os =>
            simp only [upsertMetadata] at h
            rw [hops] at h
            cases hb : bulk (o :: os) store with
            | error e =>
                rw [hb] at h
                simp at h
            | ok pr =>
                obtain ⟨res, store2⟩ := pr
                rw [hb] at h
                simp at h
                obtain ⟨hc, -, -⟩ := h
                subst hc
                obtain ⟨hi, hm⟩ := hwb (o :: os) store res store2 hb
                have hle : countInserts (o :: os) + countUpdates (o :: os) ≤
                    (t :: ts).length := by
                  have hb2 := buildOps_counts_le ((t :: ts).map sortTable) store
                    ((t :: ts).map sortTable)
                  rw [show ((t :: ts).map sortTable).foldr
                      (buildOp ((t :: ts).map sortTable) store) [] =
                      buildOps ((t :: ts).map sortTable) store from rfl, hops,
                    List.length_map] at hb2
                  exact hb2
                refine ⟨?_, ?_, ?_, ?_⟩ <;> (try dsimp only) <;>
                  (try simp only [List.length_cons] at hle ⊢) <;> omega
  refine ⟨part1, ?_⟩
  intro env world r hwb hr
  have hrec : ∀ resp : SyncResponseDto,
      r ∈ saveSyncStats env.historyWriteOk world.runLog resp env.startTime env.endTime →
      r ∈ world.runLog ∨ r = runRecordOf resp env.startTime env.endTime := by
    intro resp hmem
    unfold saveSyncStats at hmem
    by_cases hw : env.historyWriteOk = true
    · rw [if_pos hw] at hmem
      rcases List.mem_append.mp hmem with hmem | hmem
      · exact Or.inl hmem
      · exact Or.inr (by simpa using hmem)
    · rw [if_neg hw] at hmem
      exact Or.inl hmem
  cases h1 : env.getAllTablesResult (getSyncStats world.runLog) with
  | error e =>
      simp only [syncMetadata, h1] at hr
      rcases hrec _ hr with hl | hrf
      · exact Or.inl hl
      · subst hrf
        simp [runRecordOf, syncFailureResponse]
  | ok tables =>
      cases h2 : upsertMetadata env.bulkExec tables world.metaStore with
      | error e =>
          simp only [syncMetadata, h1, h2] at hr
          rcases hrec _ hr with hl | hrf
          · exact Or.inl hl
          · subst hrf
            simp [runRecordOf, syncFailureResponse]
      | ok pr =>
          obtain ⟨counts, meta2, tabs2⟩ := pr
          simp only [syncMetadata, h1, h2] at hr
          rcases hrec _ hr with hl | hrf
          · exact Or.inl hl
          · subst hrf
            obtain ⟨-, -, -, hsum⟩ :=
              part1 env.bulkExec tables world.metaStore counts meta2 tabs2 hwb h2
            right
            simpa [runRecordOf] using hsum.symm

/-- The bulk behaviour used for the C3 witness: a driver that reports no
writes at all (well within the MongoDB bounds). -/
def nullBulk : List BulkOp → MetaStore → Except JsError (BulkResult × MetaStore) :=
  fun _ store => .ok (⟨0, 0⟩, store)

theorem nullBulk_wellBehaved : WellBehavedBulk nullBulk := by
  intro ops store res store' h
  unfold nullBulk at h
  injection h with h
  rw [show res = (⟨0, 0⟩ : BulkResult) from by
    have := congrArg Prod.fst h; exact this.symm]
  exact ⟨Nat.zero_le _, Nat.zero_le _⟩

/-- Witness for C3: one new table against an empty store under `nullBulk`
(all writes unattributed), counts `{0, 0, 1}`. -/
theorem upsertMetadata_counts_witness :
    0 ≤ (⟨0, 0, 1⟩ : UpsertCounts).newTables ∧
      0 ≤ (⟨0, 0, 1⟩ : UpsertCounts).updatedTables ∧
      0 ≤ (⟨0, 0, 1⟩ : UpsertCounts).skippedTables ∧
      (⟨0, 0, 1⟩ : UpsertCounts).newTables + (⟨0, 0, 1⟩ : UpsertCounts).updatedTables +
        (⟨0, 0, 1⟩ : UpsertCounts).skippedTables = (([witTableA].length : Nat) : Int) :=
  upsertMetadata_counts.1 nullBulk [witTableA] [] ⟨0, 0, 1⟩ [] ([witTableA].map sortTable)
    nullBulk_wellBehaved (by decide)

/-! ## Column mutation visible in the persisted store (claim C10) -/

/-- The column payload a bulk operation writes. -/
def opCols : BulkOp → List SfColumn
  | .insertOne doc => doc.columns
  | .updateOne _ _ _ cols _ => cols

theorem updateFirst_mem (db sch tbl : String) (cols : List SfColumn) (cs : String) :
    ∀ (s : MetaStore) r, r ∈ (updateFirst db sch tbl cols cs s).2 →
      r ∈ s ∨ r.columns = cols := by
  intro s
  induction s with
  | nil =>
      intro r hr
      simp [updateFirst] at hr
  | cons r0 rest ih =>
      intro r hr
      by_cases hk : recKeyEq r0 db sch tbl = true
      · simp only [updateFirst, if_pos hk] at hr
        rcases List.mem_cons.mp hr with rfl | hr
        · exact Or.inr rfl
        · exact Or.inl (List.mem_cons_of_mem r0 hr)
      · simp only [updateFirst, if_neg hk] at hr
        rcases List.mem_cons.mp hr with h | hr
        · exact Or.inl (by rw [h]; exact List.mem_cons_self _ _)
        · rcases ih r hr with hm | hc
          · exact Or.inl (List.mem_cons_of_mem r0 hm)
          · exact Or.inr hc

theorem applyBulkOp_mem (acc : BulkResult × MetaStore) (op : BulkOp) (r : CatalogRecord)
    (hr : r ∈ (applyBulkOp acc op).2) : r ∈ acc.2 ∨ r.columns = opCols op := by
  cases op with
  | insertOne doc =>
      by_cases hd : (acc.2.any fun r => recKeyEq r doc.database doc.schema doc.table) = true
      · rw [show applyBulkOp acc (.insertOne doc) = acc from by simp [applyBulkOp, hd]] at hr
        exact Or.inl hr
      · simp only [applyBulkOp, if_neg hd] at hr
        rcases List.mem_append.mp hr with hm | hm
        · exact Or.inl hm
        · right
          simp only [List.mem_singleton] at hm
          rw [hm]
          rfl
  | updateOne db sch tbl cols cs =>
      simp only [applyBulkOp] at hr
      exact updateFirst_mem db sch tbl cols cs acc.2 r hr

theorem foldl_applyBulkOp_mem :
    ∀ (ops : List BulkOp) (acc : BulkResult × MetaStore) r,
      r ∈ (ops.foldl applyBulkOp acc).2 →
      r ∈ acc.2 ∨ ∃ op ∈ ops, r.columns = opCols op := by
  intro ops
  induction ops with
  | nil =>
      intro acc r hr
      exact Or.inl hr
  | cons op rest ih =>
      intro acc r hr
      simp only [List.foldl_cons] at hr
      rcases ih (applyBulkOp acc op) r hr with hm | ⟨op', hop', hcols⟩
      · rcases applyBulkOp_mem acc op r hm with hm' | hc
        · exact Or.inl hm'
        · exact Or.inr ⟨op, List.mem_cons_self op rest, hc⟩
      · exact Or.inr ⟨op', List.mem_cons_of_mem op hop', hcols⟩

theorem buildOps_opCols (all : List SnowflakeTable) (store : MetaStore) :
    ∀ (ts : List SnowflakeTable) op, op ∈ ts.foldr (buildOp all store) [] →
      ∃ t ∈ ts, opCols op = t.columns := by
  intro ts
  induction ts with
  | nil =>
      intro op hop
      simp at hop
  | cons t rest ih =>
      intro op hop
      simp only [List.foldr_cons] at hop
      cases hex : existingFor store t with
      | none =>
          simp only [buildOp, hex] at hop
          rcases List.mem_cons.mp hop with rfl | hop
          · exact ⟨t, List.mem_cons_self t rest, rfl⟩
          · obtain ⟨t', ht', h'⟩ := ih op hop
            exact ⟨t', List.mem_cons_of_mem t ht', h'⟩
      | some r0 =>
          simp only [buildOp, hex] at hop
          by_cases hc : r0.checksum ≠ checksumFor all t
          · rw [if_pos hc] at hop
            rcases List.mem_cons.mp hop with rfl | hop
            · exact ⟨t, List.mem_cons_self t rest, rfl⟩
            · obtain ⟨t', ht', h'⟩ := ih op hop
              exact ⟨t', List.mem_cons_of_mem t ht', h'⟩
          · rw [if_neg hc] at hop
            obtain ⟨t', ht', h'⟩ := ih op hop
            exact ⟨t', List.mem_cons_of_mem t ht', h'⟩

/-- C10: `generateChecksum` sorts the column array in place, so
`upsertMetadata` hands back a caller-visible table list whose column
sequences are the name-sorted permutations of the inputs, and every record
the bulk write inserts or updates carries those name-sorted columns rather
than the warehouse's original ordinal order. -/
theorem upsertMetadata_sorts_columns (tables : List SnowflakeTable) (store : MetaStore)
    (counts : UpsertCounts) (store' : MetaStore) (tabs' : List SnowflakeTable)
    (h : upsertMetadata mongoBulkExec tables store = .ok (counts, store', tabs')) :
    tabs' = tables.map sortTable ∧
      (∀ t0 ∈ tables, ((sortTable t0).columns).Perm t0.columns ∧
        List.Sorted colR ((sortTable t0).columns)) ∧
      (∀ r ∈ store', r ∈ store ∨ ∃ t0 ∈ tables, r.columns = sortColumns t0.columns) := by
  have hgen : ∀ t0 : SnowflakeTable, ((sortTable t0).columns).Perm t0.columns ∧
      List.Sorted colR ((sortTable t0).columns) :=
    fun t0 => ⟨sortColumns_perm t0.columns, sortColumns_sorted t0.columns⟩
  cases tables with
  | nil =>
      simp only [upsertMetadata, List.isEmpty_nil, if_true] at h
      simp at h
      obtain ⟨-, hs, ht⟩ := h
      subst hs
      subst ht
      exact ⟨by simp, fun t0 ht0 => hgen t0, fun r hr => Or.inl hr⟩
  | cons t ts =>
      cases hops : buildOps ((t :: ts).map sortTable) store with
      | nil =>
          simp only [upsertMetadata] at h
          rw [hops] at h
          simp at h
          obtain ⟨-, hs, ht⟩ := h
          subst hs
          subst ht
          exact ⟨rfl, fun t0 _ => hgen t0, fun r hr => Or.inl hr⟩
      | cons o os =>
          simp only [upsertMetadata] at h
          rw [hops] at h
          simp only [mongoBulkExec] at h
          simp at h
          obtain ⟨-, hs, ht⟩ := h
          subst hs
          subst ht
          refine ⟨rfl, fun t0 _ => hgen t0, ?_⟩
          intro r hr
          rcases foldl_applyBulkOp_mem (o :: os) (⟨0, 0⟩, store) r hr with hm | ⟨op, hop, hcols⟩
          · exact Or.inl hm
          · right
            rw [← hops] at hop
            obtain ⟨t', ht', h'⟩ := buildOps_opCols ((t :: ts).map sortTable) store
              ((t :: ts).map sortTable) op hop
            obtain ⟨t0, ht0, rfl⟩ := List.mem_map.mp ht'
            exact ⟨t0, ht0, by rw [hcols, h']; rfl⟩

/-- The record the C10 witness expects to be persisted. -/
def witRecord : CatalogRecord :=
  ⟨"DB1", "PUBLIC", "USERS", (sortTable witTableA).columns,
   "70a1f8c0d6816d85b440941f3d11c3c0e15eb83529bad5dca0fc847d73da38d6"⟩

/-- Witness for C10: one new table against the empty store under the
concrete bulk semantics. -/
theorem upsertMetadata_sorts_columns_witness :
    [sortTable witTableA] = [witTableA].map sortTable ∧
      (∀ t0 ∈ [witTableA], ((sortTable t0).columns).Perm t0.columns ∧
        List.Sorted colR ((sortTable t0).columns)) ∧
      (∀ r ∈ [witRecord], r ∈ ([] : MetaStore) ∨
        ∃ t0 ∈ [witTableA], r.columns = sortColumns t0.columns) :=
  upsertMetadata_sorts_columns [witTableA] [] ⟨1, 0, 0⟩ [witRecord] [sortTable witTableA]
    (by decide)

/-! ## System-object exclusion (claim C5) -/

/-- The lowercase-named database row the C5 counterexample feeds through
the set-query tier. -/
def lowercaseSysRow : InfoSchemaTableRow := ⟨"snowflake", "PUBLIC", "T", 0⟩

/-- C5 counterexample: in the set-query tier the exclusion is an exact
(case-sensitive) SQL string comparison, so a database named `snowflake` —
whose uppercased name is `SNOWFLAKE`, i.e. a system database by the
claim's own rule — appears in the extracted output. -/
theorem systemDatabase_lowercase_not_excluded :
    (⟨"snowflake", "PUBLIC", "T"⟩ : TableKey) ∈
        getAllTablesInAccountInfoSchema [lowercaseSysRow] none ∧
      isSystemDatabase "snowflake" = true := by
  exact ⟨by decide, by decide⟩

theorem showCommandsLoop_mem (acct : ShowAccountV2) :
    ∀ (dbs : List String) (ks : List TableKey) (k : TableKey),
      showCommandsLoop acct dbs = .ok ks → k ∈ ks →
      ∃ db ∈ dbs, ∃ schemas, getSchemas acct db = .ok schemas ∧
        ∃ sch ∈ schemas, ∃ tbl ∈ getTables acct db sch, k = ⟨db, sch, tbl⟩ := by
  intro dbs
  induction dbs with
  | nil =>
      intro ks k h hk
      simp only [showCommandsLoop, Except.ok.injEq] at h
      subst h
      simp at hk
  | cons db rest ih =>
      intro ks k h hk
      cases hs : getSchemas acct db with
      | error e => simp [showCommandsLoop, hs] at h
      | ok schemas =>
          cases hl : showCommandsLoop acct rest with
          | error e => simp [showCommandsLoop, hs, hl] at h
          | ok tail =>
              simp only [showCommandsLoop, hs, hl, Except.ok.injEq] at h
              subst h
              rcases List.mem_append.mp hk with hk | hk
              · obtain ⟨sch, hsch, hk⟩ := List.mem_flatMap.mp hk
                obtain ⟨tbl, htbl, hkey⟩ := List.mem_map.mp hk
                exact ⟨db, List.mem_cons_self db rest, schemas, hs, sch, hsch, tbl, htbl,
                  hkey.symm⟩
              · obtain ⟨db', hdb', rest'⟩ := ih tail k hl hk
                exact ⟨db', List.mem_cons_of_mem db hdb', rest'⟩

/-- C5 (amended): the system-object exclusion is case-insensitive in both
SHOW-command tiers (per-row `isSystemDatabase`/`isSystemSchema` filtering
in the first generation, upper-cased name filtering in the second
generation's fallback), but the set-query tier of the second generation
excludes only the exact strings `'SNOWFLAKE'` and `'INFORMATION_SCHEMA'`
(Snowflake string comparison is case-sensitive), so a database named
`snowflake` in lowercase is not excluded there. -/
theorem systemObjectExclusion_by_tier :
    (∀ (acct : ShowAccount) (since : Option Int) (now : Int) (ks : List TableKey)
        (k : TableKey),
        getAllTablesInAccountShow acct since now = .ok ks → k ∈ ks →
        isSystemDatabase k.database = false ∧ isSystemSchema k.schema = false) ∧
    (∀ (acct : ShowAccountV2) (ks : List TableKey) (k : TableKey),
        getAllTablesWithShowCommands acct = .ok ks → k ∈ ks →
        isSystemDatabase k.database = false ∧ isSystemSchema k.schema = false) ∧
    (∀ (rows : List InfoSchemaTableRow) (since : Option Int) (k : TableKey),
        k ∈ getAllTablesInAccountInfoSchema rows since →
        k.database ≠ "SNOWFLAKE" ∧ k.schema ≠ "INFORMATION_SCHEMA") := by
  refine ⟨?_, ?_, ?_⟩
  · intro acct since now ks k h hk
    cases hd : acct.databasesResult with
    | error e => simp [getAllTablesInAccountShow, hd] at h
    | ok dbs =>
        simp only [getAllTablesInAccountShow, hd, Except.ok.injEq] at h
        subst h
        obtain ⟨db, hdb, hk⟩ := List.mem_flatMap.mp hk
        obtain ⟨hdbm, hdbf⟩ := List.mem_filter.mp hdb
        obtain ⟨sch, hsch, hk⟩ := List.mem_flatMap.mp hk
        obtain ⟨hschm, hschf⟩ := List.mem_filter.mp hsch
        obtain ⟨row, hrow, hkey⟩ := List.mem_map.mp hk
        subst hkey
        constructor
        · simpa using hdbf
        · simpa using hschf
  · intro acct ks k h hk
    cases hd : getDatabases acct with
    | error e => simp [getAllTablesWithShowCommands, hd] at h
    | ok dbs =>
        simp only [getAllTablesWithShowCommands, hd] at h
        obtain ⟨db, hdb, schemas, hsch, sch, hschm, tbl, htbl, hkey⟩ :=
          showCommandsLoop_mem acct dbs ks k h hk
        subst hkey
        cases hraw : acct.databasesResult with
        | error e => simp [getDatabases, hraw] at hd
        | ok names =>
            simp only [getDatabases, hraw, Except.ok.injEq] at hd
            subst hd
            obtain ⟨-, hdbf⟩ := List.mem_filter.mp hdb
            cases hraws : acct.schemasResult db with
            | error e => simp [getSchemas, hraws] at hsch
            | ok snames =>
                simp only [getSchemas, hraws, Except.ok.injEq] at hsch
                subst hsch
                obtain ⟨-, hschf⟩ := List.mem_filter.mp hschm
                constructor
                · simp only [isSystemDatabase]
                  simp at hdbf
                  simp [hdbf.1, hdbf.2]
                · simp only [isSystemSchema]
                  simpa using hschf
  · intro rows since k hk
    obtain ⟨r, hr, hkey⟩ := List.mem_map.mp hk
    obtain ⟨-, hf⟩ := List.mem_filter.mp hr
    subst hkey
    simp only [infoSchemaWhere, Bool.and_eq_true, bne_iff_ne] at hf
    exact ⟨hf.1.2, hf.1.1⟩

/-- Concrete warehouse for the C5 witness: a user database plus a
lower-cased system database and schema. -/
def witShowAccount : ShowAccount :=
  { databasesResult := .ok ["MYDB", "snowflake"]
    schemasResult := fun _ => .ok ["PUBLIC", "information_schema"]
    tablesResult := fun _ _ => .ok [⟨some "T1", none, some 50, none⟩] }

/-- Witness for C5 on the concrete warehouse: the sole surviving key is
`MYDB.PUBLIC.T1` and the exclusion predicates reject nothing about it. -/
theorem systemObjectExclusion_by_tier_witness :
    (getAllTablesInAccountShow witShowAccount none 100 =
        .ok [(⟨"MYDB", "PUBLIC", "T1"⟩ : TableKey)] ∧
      (⟨"MYDB", "PUBLIC", "T1"⟩ : TableKey) ∈ [(⟨"MYDB", "PUBLIC", "T1"⟩ : TableKey)]) ∧
      isSystemDatabase (⟨"MYDB", "PUBLIC", "T1"⟩ : TableKey).database = false ∧
      isSystemSchema (⟨"MYDB", "PUBLIC", "T1"⟩ : TableKey).schema = false :=
  ⟨⟨by decide, by decide⟩,
    systemObjectExclusion_by_tier.1 witShowAccount none 100
      [⟨"MYDB", "PUBLIC", "T1"⟩] ⟨"MYDB", "PUBLIC", "T1"⟩ (by decide) (by decide)⟩

/-! ## Incremental-filter policy (claim C6) -/

/-- The full (never incrementally filtered) result of the set-query tier,
for comparison with the `lastSyncTime = none` behaviour. -/
def getAllTablesInAccountInfoSchemaFull (rows : List InfoSchemaTableRow) : List TableKey :=
  (rows.filter (fun r => r.TABLE_SCHEMA != "INFORMATION_SCHEMA" &&
      r.TABLE_CATALOG != "SNOWFLAKE")).map
    (fun r => ⟨r.TABLE_CATALOG, r.TABLE_SCHEMA, r.TABLE_NAME⟩)

/-- C6: when `since` is absent nothing is filtered — the row predicate is
constantly false and both extraction generations return the full catalog;
when `since` is present but a table's modification timestamp cannot be
resolved (both creation fields missing), the row defaults to `Date.now()`
and is included (provided the watermark lies in the past); and a failure
of the set query falls back to the SHOW tier, which applies no incremental
filter at all. -/
theorem incrementalFilter_policy :
    (∀ (row : ShowTableRow) (now : Int), shouldSkipTable row none now = false) ∧
    (∀ (acct : ShowAccount) (now : Int),
        getAllTablesInAccountShow acct none now = getAllTablesInAccountShowFull acct) ∧
    (∀ rows : List InfoSchemaTableRow,
        getAllTablesInAccountInfoSchema rows none =
          getAllTablesInAccountInfoSchemaFull rows) ∧
    (∀ (row : ShowTableRow) (t now : Int), row.created_on = none → row.CREATED_ON = none →
        t < now → shouldSkipTable row (some t) now = false) ∧
    (∀ (e : JsError) (fallback : ShowAccountV2) (since : Option Int),
        getAllTablesInAccountV2 (.error e) fallback since =
          getAllTablesWithShowCommands fallback) := by
  refine ⟨fun row now => rfl, ?_, ?_, ?_, fun e fallback since => rfl⟩
  · intro acct now
    cases hd : acct.databasesResult with
    | error e => simp [getAllTablesInAccountShow, getAllTablesInAccountShowFull, hd]
    | ok dbs => simp [getAllTablesInAccountShow, getAllTablesInAccountShowFull, hd,
        shouldSkipTable]
  · intro rows
    simp only [getAllTablesInAccountInfoSchema, getAllTablesInAccountInfoSchemaFull]
    refine congrArg _ (List.filter_congr ?_)
    intro r _
    simp [infoSchemaWhere]
  · intro row t now hco hCO hlt
    simp only [shouldSkipTable, hco, hCO]
    simp only [Option.orElse_none, Option.orElse, Option.getD]
    simp only [decide_eq_false_iff_not, not_le]
    exact hlt

/-- Witness for C6: a row with no creation data is not skipped, with and
without a watermark. -/
theorem incrementalFilter_policy_witness :
    shouldSkipTable ⟨some "T", none, none, none⟩ none 0 = false ∧
      shouldSkipTable ⟨some "T", none, none, none⟩ (some 5) 10 = false :=
  ⟨incrementalFilter_policy.1 ⟨some "T", none, none, none⟩ 0,
    incrementalFilter_policy.2.2.2.1 ⟨some "T", none, none, none⟩ 5 10 rfl rfl (by decide)⟩

end SnowflakeSync
